import Mathlib

/-!
Verification of the schema–normalization heuristic and panel logic of the
NYC collisions dashboard (`app.py`).  The pandas DataFrame is embedded as a
list of column names plus positional rows of cell values; every pandas
operation used by the script (column canonicalization, substring-based
column detection, rename, `to_numeric`/`to_datetime` coercion, `dropna`,
`fillna`, `value_counts`, `isin`, `groupby(...).size()`) is given an
executable model, and the five panels' render/state behaviour is modelled
as functions on that table.
-/

/-- A cell value of the table: missing (`NaN`/`None`/`NaT`), a string, a
rational number (modelling a finite float), or a timestamp
(year, month, day, hour, minute). -/
inductive Val where
  | null : Val
  | vstr : String → Val
  | vnum : ℚ → Val
  | vdt : Nat → Nat → Nat → Nat → Nat → Val
deriving DecidableEq, Repr

/-- A DataFrame: a list of column names and positional rows.  Duplicate
column names are representable (pandas permits them after renames). -/
structure DF where
  cols : List String
  rows : List (List Val)
deriving DecidableEq, Repr

/-- Well-formedness: every row has exactly one cell per column. -/
def DF.WF (df : DF) : Prop := ∀ r ∈ df.rows, r.length = df.cols.length

/-! ### Column-name canonicalization (`app.py` line 20)
`str.strip().str.lower().str.replace(' ', '_').str.replace(r'[^\w]', '', regex=True)`
modelled over ASCII character classes. -/

/-- Whitespace stripped by `str.strip` (ASCII model). -/
def isStripWS (c : Char) : Bool :=
  c.toNat == 32 || c.toNat == 9 || c.toNat == 13 || c.toNat == 10

/-- ASCII lower-casing, as `str.lower` acts on ASCII letters. -/
def lowerChar (c : Char) : Char :=
  if 65 ≤ c.toNat ∧ c.toNat ≤ 90 then Char.ofNat (c.toNat + 32) else c

/-- Word characters of the regex `\w` (ASCII model): digits, letters,
underscore. -/
def isWordChar (c : Char) : Bool :=
  (48 ≤ c.toNat && c.toNat ≤ 57) || (65 ≤ c.toNat && c.toNat ≤ 90) ||
  (97 ≤ c.toNat && c.toNat ≤ 122) || c.toNat == 95

/-- Replace a space by an underscore (`str.replace(' ', '_')`). -/
def spaceToUnderscore (c : Char) : Char := if c == ' ' then '_' else c

/-- Strip leading and trailing whitespace. -/
def stripL (l : List Char) : List Char :=
  ((l.dropWhile isStripWS).reverse.dropWhile isStripWS).reverse

/-- The canonicalization pipeline on a character list: strip, lower,
space→underscore, delete non-word characters. -/
def canonList (l : List Char) : List Char :=
  (((stripL l).map lowerChar).map spaceToUnderscore).filter isWordChar

/-- Canonicalize one column name (`app.py` line 20). -/
def canonName (s : String) : String := ⟨canonList s.data⟩

/-! ### Substring containment (Python `needle in s`) -/

/-- Does the second list start with the first? -/
def startsWithL : List Char → List Char → Bool
  | [], _ => true
  | _ :: _, [] => false
  | a :: as, b :: bs => a == b && startsWithL as bs

/-- Is the first list an infix of the second? -/
def containsL (needle : List Char) : List Char → Bool
  | [] => needle.isEmpty
  | h :: t => startsWithL needle (h :: t) || containsL needle t

/-- Python's substring test `needle in hay`. -/
def containsSub (hay needle : String) : Bool := containsL needle.data hay.data

/-! ### Positional table primitives -/

/-- Index of the first column with the given name. -/
def idxOf (n : String) : List String → Option Nat
  | [] => none
  | c :: t => if c == n then some 0 else (idxOf n t).map (· + 1)

/-- Read cell `i` of a row (missing positions read as null). -/
def cell (r : List Val) (i : Nat) : Val := r.getD i Val.null

/-- The first index of a named column, defaulting to 0. -/
def colPos (df : DF) (n : String) : Nat := (idxOf n df.cols).getD 0

/-- The series of a named column (empty when the column is absent). -/
def colVals (df : DF) (n : String) : List Val :=
  match idxOf n df.cols with
  | some i => df.rows.map (fun r => cell r i)
  | none => []

/-- Overwrite, inside one row, every position whose column name is `n`. -/
def setRowV (n : String) (v : Val) : List String → List Val → List Val
  | _, [] => []
  | [], r => r
  | c :: ct, x :: xt => (if c == n then v else x) :: setRowV n v ct xt

/-- Column assignment `data[n] = f(row)`: rewrite the column in place when
it exists, otherwise append it on the right (pandas semantics). -/
def setCol (df : DF) (n : String) (f : List Val → Val) : DF :=
  if df.cols.contains n then
    { cols := df.cols, rows := df.rows.map (fun r => setRowV n (f r) df.cols r) }
  else
    { cols := df.cols ++ [n], rows := df.rows.map (fun r => r ++ [f r]) }

/-- `DataFrame.rename(columns=m)`: map every column name through the
dictionary, leaving unmatched names (including stale keys) unchanged. -/
def renameAll (m : List (String × String)) (df : DF) : DF :=
  { cols := df.cols.map (fun c => ((m.lookup c).getD c)), rows := df.rows }

/-- Python dict assignment `m[k] = v`: overwrite an existing key, else
append the binding. -/
def dictInsert (m : List (String × String)) (k v : String) : List (String × String) :=
  if m.any (fun p => p.1 == k) then
    m.map (fun p => if p.1 == k then (k, v) else p)
  else m ++ [(k, v)]

/-- Column projection `data[ns]`. -/
def selectCols (df : DF) (ns : List String) : DF :=
  { cols := ns, rows := df.rows.map (fun r => ns.map (fun n => cell r (colPos df n))) }

/-! ### Value coercions (`pd.to_numeric`, `pd.to_datetime`, `fillna`) -/

/-- Split a character list on a separator character. -/
def splitOnChar (sep : Char) : List Char → List Char → List (List Char)
  | [], acc => [acc.reverse]
  | c :: t, acc =>
    if c == sep then acc.reverse :: splitOnChar sep t []
    else splitOnChar sep t (c :: acc)

/-- Decimal digit value of a character, if it is a digit. -/
def digitVal (c : Char) : Option Nat :=
  if 48 ≤ c.toNat ∧ c.toNat ≤ 57 then some (c.toNat - 48) else none

/-- Parse a non-empty all-digit character list as a natural number. -/
def digitsNat : List Char → Option Nat
  | [] => none
  | l => l.foldl (fun acc c => match acc, digitVal c with
      | some n, some d => some (n * 10 + d)
      | _, _ => none) (some 0)

/-- Numeric parsing for `pd.to_numeric(errors='coerce')` on strings:
an optional sign, digits, an optional fractional part; anything else is
unparsable. -/
def parseNum (s : String) : Option ℚ :=
  let core : List Char → Option ℚ := fun l =>
    match splitOnChar '.' l [] with
    | [a] => (digitsNat a).map (fun n => (n : ℚ))
    | [a, b] =>
      match digitsNat a, digitsNat b with
      | some n, some m => some ((n : ℚ) + (m : ℚ) / ((10 : ℚ) ^ b.length))
      | _, _ => none
    | _ => none
  match s.data with
  | '-' :: rest => (core rest).map (fun q => -q)
  | l => core l

/-- `pd.to_numeric(errors='coerce')` on one cell: numbers pass through,
parsable strings become numbers, everything else becomes null. -/
def toNumericVal : Val → Val
  | .vnum q => .vnum q
  | .vstr s => match parseNum s with
    | some q => .vnum q
    | none => .null
  | _ => .null

/-- `fillna(0)` on one cell. -/
def fillZero : Val → Val
  | .null => .vnum 0
  | v => v

/-- `fillna('Unknown')` on one cell. -/
def fillUnknownV : Val → Val
  | .null => .vstr "Unknown"
  | v => v

/-- `replace('', 'Unspecified')` on one cell. -/
def replEmptyV (v : Val) : Val :=
  if v == Val.vstr "" then Val.vstr "Unspecified" else v

/-- `str(value)` as pandas `astype(str)` renders cells (nulls print as
`"nan"`). -/
def valToStr : Val → String
  | .null => "nan"
  | .vstr s => s
  | .vnum q => toString q.num
  | .vdt _ _ _ _ _ => "timestamp"

/-- Parse `"YYYY-MM-DD"` with plausibility bounds on month and day. -/
def parseDate (l : List Char) : Option (Nat × Nat × Nat) :=
  match splitOnChar '-' l [] with
  | [y, m, d] =>
    match digitsNat y, digitsNat m, digitsNat d with
    | some yn, some mn, some dn =>
      if 1 ≤ mn ∧ mn ≤ 12 ∧ 1 ≤ dn ∧ dn ≤ 31 then some (yn, mn, dn) else none
    | _, _, _ => none
  | _ => none

/-- Parse `"HH:MM"` or `"HH:MM:SS"` (seconds are dropped: the model keeps
minute precision). -/
def parseTime (l : List Char) : Option (Nat × Nat) :=
  match splitOnChar ':' l [] with
  | [h, m] =>
    match digitsNat h, digitsNat m with
    | some hn, some mn => if hn ≤ 23 ∧ mn ≤ 59 then some (hn, mn) else none
    | _, _ => none
  | [h, m, _] =>
    match digitsNat h, digitsNat m with
    | some hn, some mn => if hn ≤ 23 ∧ mn ≤ 59 then some (hn, mn) else none
    | _, _ => none
  | _ => none

/-- `pd.to_datetime(errors='coerce')` on a rendered string: a date with an
optional time part; unparsable input becomes null (`NaT`). -/
def toDatetime (s : String) : Val :=
  match splitOnChar ' ' s.data [] with
  | [d, t] =>
    match parseDate d, parseTime t with
    | some (y, m, dd), some (h, mi) => .vdt y m dd h mi
    | _, _ => .null
  | [d] =>
    match parseDate d with
    | some (y, m, dd) => .vdt y m dd 0 0
    | _ => .null
  | _ => .null

/-- `Series.dt.hour` on one cell (null for `NaT`). -/
def dtHourVal : Val → Val
  | .vdt _ _ _ h _ => .vnum h
  | _ => .null

/-- `Series.dt.date` on one cell (null for `NaT`). -/
def dtDateVal : Val → Val
  | .vdt y m d _ _ => .vdt y m d 0 0
  | _ => .null

/-! ### The `load_data` pipeline (`app.py` lines 11–98) -/

/-- Step 1: canonicalize all column names (line 20). -/
def canonCols (df : DF) : DF :=
  { cols := df.cols.map canonName, rows := df.rows }

/-- First column whose name contains `"date"` (lines 25–31). -/
def dateColF (cols : List String) : Option String :=
  cols.find? (fun c => containsSub c "date")

/-- First column whose name contains `"time"` (lines 25–31). -/
def timeColF (cols : List String) : Option String :=
  cols.find? (fun c => containsSub c "time")

/-- Step 2: derive the `datetime` column (lines 33–40): concatenate the
date and time columns as strings and parse, or parse the date column
alone; absent sources produce no column. -/
def addDatetime (df : DF) : DF :=
  match dateColF df.cols, timeColF df.cols with
  | some dc, some tc =>
    setCol df "datetime"
      (fun r => toDatetime (valToStr (cell r (colPos df dc)) ++ " " ++ valToStr (cell r (colPos df tc))))
  | some dc, none =>
    setCol df "datetime" (fun r => toDatetime (valToStr (cell r (colPos df dc))))
  | none, _ => df

/-- First column whose name contains `"lat"` (lines 42–49). -/
def latColF (cols : List String) : Option String :=
  cols.find? (fun c => containsSub c "lat")

/-- First column whose name contains `"lon"` (lines 42–49). -/
def lonColF (cols : List String) : Option String :=
  cols.find? (fun c => containsSub c "lon")

/-- Step 3: the two sequential coordinate renames (lines 51–55); both
source names are found before either rename runs. -/
def renameLatLon (df : DF) : DF :=
  let latc := latColF df.cols
  let lonc := lonColF df.cols
  let df1 := match latc with
    | some c => renameAll [(c, "latitude")] df
    | none => df
  match lonc with
  | some c => renameAll [(c, "longitude")] df1
  | none => df1

/-- The injury-column search loop (lines 58–64): break at the first name
containing both `"injured"` and `"person"`, otherwise keep overwriting
with any name containing `"injured"`. -/
def injuryLoop : List String → Option String → Option String
  | [], acc => acc
  | c :: rest, acc =>
    if containsSub c "injured" && containsSub c "person" then some c
    else if containsSub c "injured" then injuryLoop rest (some c)
    else injuryLoop rest acc

/-- The selected injury source column. -/
def injuryCol (cols : List String) : Option String := injuryLoop cols none

/-- Step 4: rename the injury column and coerce it (lines 66–69):
`to_numeric(errors='coerce').fillna(0)`. -/
def applyInjury (df : DF) : DF :=
  match injuryCol df.cols with
  | some c =>
    let df1 := renameAll [(c, "injured_persons")] df
    setCol df1 "injured_persons"
      (fun r => fillZero (toNumericVal (cell r (colPos df1 "injured_persons"))))
  | none => df

/-- `f'vehicle_{i}'` for the indices probed by the loop (lines 76–77). -/
def vehicleStr : Nat → String
  | 1 => "vehicle_1"
  | 2 => "vehicle_2"
  | 3 => "vehicle_3"
  | 4 => "vehicle_4"
  | 5 => "vehicle_5"
  | _ => "vehicle_"

/-- The standardized factor target names (line 81). -/
def factorTarget : Nat → String
  | 1 => "contributing_factor_vehicle_1"
  | 2 => "contributing_factor_vehicle_2"
  | _ => "contributing_factor_vehicle_"

/-- The embedded vehicle index of a factor column: the first `i` in 1–5
with `vehicle_{i}` (or `vehicle_{i}_`) as a substring (lines 76–83; the
loop breaks at the first hit). -/
def vehicleIdx (c : String) : Option Nat :=
  [1, 2, 3, 4, 5].find?
    (fun i => containsSub c (vehicleStr i) || containsSub c (vehicleStr i ++ "_"))

/-- Step 5a: build the factor rename dictionary (lines 72–83): keys are
source columns; only detected indices 1 and 2 produce entries. -/
def factorMapping (cols : List String) : List (String × String) :=
  cols.foldl
    (fun m c =>
      if containsSub c "contributing_factor" then
        match vehicleIdx c with
        | some i => if i == 1 || i == 2 then dictInsert m c (factorTarget i) else m
        | none => m
      else m)
    []

/-- Step 5b: apply the factor renames (lines 85–88). -/
def applyFactors (df : DF) : DF :=
  let m := factorMapping df.cols
  if m.isEmpty then df else renameAll m df

/-- Everything of `load_data` before the coordinate step. -/
def preDrop (df : DF) : DF :=
  applyFactors (applyInjury (renameLatLon (addDatetime (canonCols df))))

/-- Step 6 (lines 90–95): when both coordinate columns exist, first drop
rows where either cell is null, then coerce both columns with
`to_numeric(errors='coerce')` — in that order. -/
def dropCoords (df : DF) : DF :=
  if df.cols.contains "latitude" && df.cols.contains "longitude" then
    let li := colPos df "latitude"
    let oi := colPos df "longitude"
    let df1 : DF :=
      { cols := df.cols,
        rows := df.rows.filter
          (fun r => !(cell r li == Val.null) && !(cell r oi == Val.null)) }
    let df2 := setCol df1 "latitude" (fun r => toNumericVal (cell r li))
    setCol df2 "longitude" (fun r => toNumericVal (cell r oi))
  else df

/-- The whole `load_data` normalization (lines 11–98). -/
def loadData (df : DF) : DF := dropCoords (preDrop df)

/-! ### Aggregation primitives (`value_counts`, `groupby(...).size()`) -/

/-- De-duplication keeping first occurrences, accumulator form. -/
def dedupAux {α : Type} [DecidableEq α] : List α → List α → List α
  | acc, [] => acc
  | acc, x :: t => dedupAux (if acc.contains x then acc else acc ++ [x]) t

/-- Distinct elements of a list in order of first occurrence. -/
def dedupF {α : Type} [DecidableEq α] (l : List α) : List α := dedupAux [] l

/-- Insert into a count-descending list, before the first strictly
smaller count (stable for ties). -/
def insertDesc (p : Val × Nat) : List (Val × Nat) → List (Val × Nat)
  | [] => [p]
  | q :: t => if q.2 ≤ p.2 then p :: q :: t else q :: insertDesc p t

/-- Stable insertion sort by descending count. -/
def sortDesc : List (Val × Nat) → List (Val × Nat)
  | [] => []
  | p :: t => insertDesc p (sortDesc t)

/-- `Series.value_counts()`: occurrence counts of the distinct non-null
values, ordered by descending count. -/
def valueCounts (vs : List Val) : List (Val × Nat) :=
  let nn := vs.filter (fun v => !(v == Val.null))
  sortDesc ((dedupF nn).map (fun v => (v, nn.count v)))

/-! ### Panel renders and state effects (`app.py` lines 108–280) -/

/-- What a panel emits: a chart, an `st.info`/`st.warning` message,
nothing at all, or a raised exception. -/
inductive Render where
  | chart : Render
  | info : String → Render
  | warn : String → Render
  | silent : Render
  | raised : Render
deriving DecidableEq, Repr

/-- The missing-column list of the map panel's warning (lines 125–131). -/
def mapMissing (df : DF) : List String :=
  (if df.cols.contains "injured_persons" then [] else ["'injured_persons'"]) ++
  (if df.cols.contains "latitude" then [] else ["'latitude'"]) ++
  (if df.cols.contains "longitude" then [] else ["'longitude'"])

/-- `Series.max()` over a numeric column, skipping nulls; `none` when no
numeric value exists (then `int(max)` raises `ValueError`). -/
def seriesMaxQ (vs : List Val) : Option ℚ :=
  vs.foldl
    (fun acc v => match v, acc with
      | .vnum q, some m => some (max m q)
      | .vnum q, none => some q
      | _, acc => acc)
    none

/-- `injured >= thr` on one cell; null compares false, as in pandas. -/
def geThr (v : Val) (thr : ℚ) : Bool :=
  match v with
  | .vnum x => thr ≤ x
  | _ => false

/-- The rows the map panel plots (line 116): threshold filter, projection
to the coordinate columns, then `dropna()`. -/
def mapMatchRows (df : DF) (thr : ℚ) : List (List Val) :=
  let ii := colPos df "injured_persons"
  let sub : DF := { cols := df.cols, rows := df.rows.filter (fun r => geThr (cell r ii) thr) }
  let sel := selectCols sub ["latitude", "longitude"]
  sel.rows.filter (fun r => !(r.contains Val.null))

/-- The map panel (lines 111–132): warns naming the missing columns; with
columns present, `int(max)` of an all-null/empty injury column raises;
otherwise a map of the matching rows or an informational message. -/
def mapPanelRender (df : DF) (thr : ℚ) : Render :=
  if df.cols.contains "injured_persons" && df.cols.contains "latitude" &&
      df.cols.contains "longitude" then
    match seriesMaxQ (colVals df "injured_persons") with
    | none => .raised
    | some _ =>
      if (mapMatchRows df thr).isEmpty then
        .info "No data matches the filter. Try a lower injury count."
      else .chart
  else
    .warn ("Cannot show map. Missing columns: " ++ String.intercalate ", " (mapMissing df))

/-- The time series panel's output (lines 137–169): charts when
`datetime` exists, otherwise an informational message. -/
def timeSeriesRender (df : DF) : Render :=
  if df.cols.contains "datetime" then .chart
  else .info "Cannot show temporal charts: No datetime column found."

/-- The time series panel's effect on the shared table (lines 139 and
160): it assigns `data['date']` and `data['hour']` columns. -/
def timeSeriesEffect (df : DF) : DF :=
  if df.cols.contains "datetime" then
    let d1 := setCol df "date" (fun r => dtDateVal (cell r (colPos df "datetime")))
    setCol d1 "hour" (fun r => dtHourVal (cell r (colPos d1 "datetime")))
  else df

/-- The factor panel (lines 175–231): top-15 value counts of the selected
column after `fillna('Unknown').replace('', 'Unspecified')`, with the
Unknown/Unspecified rows removed from the displayed ranking. -/
def factorPanelRender (df : DF) (sel : String) : Render :=
  let factorCols := df.cols.filter (fun c => containsSub c "contributing_factor_vehicle_")
  if !factorCols.isEmpty then
    let avail := (["contributing_factor_vehicle_1", "contributing_factor_vehicle_2"]).filter
      (fun n => df.cols.contains n)
    if !avail.isEmpty then
      if df.cols.contains sel then
        let fd := (colVals df sel).map (fun v => replEmptyV (fillUnknownV v))
        let top := ((valueCounts fd).take 15).filter
          (fun p => !((["Unspecified", "Unknown", "unspecified", "unknown"].map Val.vstr).contains p.1))
        if top.isEmpty then .info ("No significant factor data found for " ++ sel)
        else .chart
      else .silent
    else .info "No contributing factor columns (vehicle 1 or 2) found in the data"
  else .info "No contributing factor columns available for analysis"

/-- The heatmap panel (lines 236–243): a density chart when `datetime`,
`latitude` and `longitude` are all present — and nothing otherwise: the
guard has no else branch. -/
def heatmapRender (df : DF) : Render :=
  if df.cols.contains "datetime" && df.cols.contains "latitude" &&
      df.cols.contains "longitude" then .chart
  else .silent

/-- The factor columns offered by the factor-by-hour panel (lines
250–251). -/
def p5FactorCols (cols : List String) : List String :=
  cols.filter (fun c =>
    containsSub c "contributing_factor_vehicle_1" || containsSub c "contributing_factor_vehicle_2")

/-- The factor-by-hour panel's effect on the shared table (lines
256–258): it assigns `data['hour']` when absent. -/
def panel5Effect (df : DF) : DF :=
  if df.cols.contains "datetime" &&
      df.cols.any (fun c => containsSub c "contributing_factor_vehicle_") then
    if (p5FactorCols df.cols).isEmpty then df
    else if !(df.cols.contains "hour") && df.cols.contains "datetime" then
      setCol df "hour" (fun r => dtHourVal (cell r (colPos df "datetime")))
    else df
  else df

/-- The top 3 values of the selected factor column (line 262): value
counts of the column after `fillna('Unknown')`, first three indices. -/
def p5TopFactors (df : DF) (sel : String) : List Val :=
  ((valueCounts ((colVals df sel).map fillUnknownV)).take 3).map (fun p => p.1)

/-- The rows retained by `isin(top_factors)` (line 266): the membership
test reads the original, un-filled column values. -/
def p5Filtered (df : DF) (sel : String) : List (List Val) :=
  df.rows.filter (fun r => (p5TopFactors df sel).contains (cell r (colPos df sel)))

/-- The `(hour, factor)` keys of the retained rows; `groupby` drops keys
with a null component. -/
def p5Keys (df : DF) (sel : String) : List (Val × Val) :=
  ((p5Filtered df sel).map (fun r => (cell r (colPos df "hour"), cell r (colPos df sel)))).filter
    (fun k => !(k.1 == Val.null) && !(k.2 == Val.null))

/-- `groupby(['hour', sel]).size()` over the retained rows (line 270). -/
def p5Grouped (df : DF) (sel : String) : List ((Val × Val) × Nat) :=
  (dedupF (p5Keys df sel)).map (fun k => (k, (p5Keys df sel).count k))

/-- The factor-by-hour panel (lines 246–280): missing requirements render
nothing (the outer guards have no else branches); otherwise a line chart
of the grouped counts or an informational message. -/
def panel5Render (df : DF) (sel : String) : Render :=
  if df.cols.contains "datetime" &&
      df.cols.any (fun c => containsSub c "contributing_factor_vehicle_") then
    if (p5FactorCols df.cols).isEmpty then .silent
    else
      let df1 := panel5Effect df
      if df1.cols.contains "hour" then
        if (p5TopFactors df1 sel).isEmpty then
          .info ("No significant factors found in " ++ sel)
        else if (p5Filtered df1 sel).isEmpty then
          .info ("No data available for the top factors in " ++ sel)
        else .chart
      else .silent
  else .silent

/-! ### Concrete input tables used as witnesses and counterexamples -/

/-- The spec's scenario input: one collision record with raw NYC column
names. -/
def dfScenario : DF :=
  { cols := ["CRASH DATE", "CRASH TIME", "LATITUDE", "LONGITUDE",
             "NUMBER OF PERSONS INJURED", "CONTRIBUTING FACTOR VEHICLE 1"],
    rows := [[Val.vstr "2021-01-05", Val.vstr "14:30", Val.vnum (407 / 10),
              Val.vnum (-739 / 10), Val.vnum 2, Val.vstr "Driver Inattention"]] }

/-- An input whose latitude value is a non-null unparsable string. -/
def dfStrCoord : DF :=
  { cols := ["latitude", "longitude"],
    rows := [[Val.vstr "abc", Val.vnum 1]] }

/-- An input with two factor columns both carrying vehicle index 1. -/
def dfTwoFactor : DF :=
  { cols := ["contributing_factor_vehicle_1", "extra_contributing_factor_vehicle_1"],
    rows := [[Val.vstr "A", Val.vstr "B"]] }

/-- An input with two plain injury columns and one row. -/
def dfTwoInjured : DF :=
  { cols := ["injured_a", "injured_b"],
    rows := [[Val.vnum 1, Val.vnum 2]] }

/-- A normalized table missing every panel requirement. -/
def dfBare : DF := { cols := ["a"], rows := [] }

/-- A normalized table for the factor-by-hour panel in which nulls
dominate the factor column. -/
def dfNullFactor : DF :=
  { cols := ["datetime", "hour", "contributing_factor_vehicle_1"],
    rows := [[Val.vdt 2021 1 5 14 30, Val.vnum 14, Val.null],
             [Val.vdt 2021 1 5 15 0, Val.vnum 15, Val.null],
             [Val.vdt 2021 1 5 16 0, Val.vnum 16, Val.vstr "A"]] }

/-- An input whose only coordinate row has a null latitude, so the
normalized table has the coordinate columns but zero rows. -/
def dfAllDropped : DF :=
  { cols := ["latitude", "longitude", "number_injured_persons"],
    rows := [[Val.null, Val.vnum 1, Val.vnum 2]] }

/-- An input whose first `lat`-bearing and first `lon`-bearing column are
one and the same, while a later column is literally named `longitude`. -/
def dfLatLon : DF :=
  { cols := ["latlon", "longitude"],
    rows := [[Val.vnum 1, Val.vnum 2]] }

/-- The numeric effect of ASCII lower-casing. -/
theorem lowerChar_toNat (c : Char) :
    (lowerChar c).toNat = if 65 ≤ c.toNat ∧ c.toNat ≤ 90 then c.toNat + 32 else c.toNat := by
  unfold lowerChar
  split
  · rename_i h
    have hv : (c.toNat + 32).isValidChar := by
      left
      omega
    unfold Char.ofNat
    simp [hv]
    unfold Char.ofNatAux Char.toNat
    simp [UInt32.toNat, BitVec.toNat_ofNatLt]
  · rfl

/-- Lower-casing is the identity away from ASCII capitals. -/
theorem lowerChar_of_not_upper {c : Char} (h : ¬(65 ≤ c.toNat ∧ c.toNat ≤ 90)) :
    lowerChar c = c := by
  unfold lowerChar
  exact if_neg h

/-- Lower-casing never produces an ASCII capital. -/
theorem lowerChar_not_upper (c : Char) :
    ¬(65 ≤ (lowerChar c).toNat ∧ (lowerChar c).toNat ≤ 90) := by
  rw [lowerChar_toNat]
  split <;> omega

/-- Every character surviving canonicalization is a non-capital,
non-space, non-whitespace word character. -/
theorem mem_canonList {c : Char} {l : List Char} (h : c ∈ canonList l) :
    isWordChar c = true ∧ lowerChar c = c ∧ spaceToUnderscore c = c ∧ isStripWS c = false := by
  unfold canonList at h
  obtain ⟨hmem, hword⟩ := List.mem_filter.mp h
  obtain ⟨b, hb, hcb⟩ := List.mem_map.mp hmem
  obtain ⟨a, _, hba⟩ := List.mem_map.mp hb
  have hc : c = spaceToUnderscore (lowerChar a) := by rw [hba, hcb]
  have hnotup : ¬(65 ≤ c.toNat ∧ c.toNat ≤ 90) := by
    rw [hc]
    unfold spaceToUnderscore
    split
    · decide
    · exact lowerChar_not_upper a
  have hnotsp : c ≠ ' ' := by
    intro hsp
    rw [hsp] at hword
    exact absurd hword (by decide)
  refine ⟨hword, lowerChar_of_not_upper hnotup, ?_, ?_⟩
  · unfold spaceToUnderscore
    rw [if_neg]
    simpa using hnotsp
  · have hw : (48 ≤ c.toNat ∧ c.toNat ≤ 57) ∨ (65 ≤ c.toNat ∧ c.toNat ≤ 90) ∨
        (97 ≤ c.toNat ∧ c.toNat ≤ 122) ∨ c.toNat = 95 := by
      revert hword
      unfold isWordChar
      simp only [Bool.or_eq_true, Bool.and_eq_true, decide_eq_true_eq, beq_iff_eq]
      tauto
    unfold isStripWS
    simp only [Bool.or_eq_false_iff, beq_eq_false_iff_ne, ne_eq]
    omega

/-- `dropWhile` is the identity when no element satisfies the predicate. -/
theorem dropWhile_eq_self_of {p : Char → Bool} {l : List Char}
    (h : ∀ c ∈ l, p c = false) : l.dropWhile p = l := by
  cases l with
  | nil => rfl
  | cons a t =>
    rw [List.dropWhile_cons, h a (List.mem_cons_self a t)]
    simp

/-- Stripping is the identity on whitespace-free lists. -/
theorem stripL_eq_self {l : List Char} (h : ∀ c ∈ l, isStripWS c = false) :
    stripL l = l := by
  unfold stripL
  rw [dropWhile_eq_self_of h, dropWhile_eq_self_of, List.reverse_reverse]
  intro c hc
  exact h c (List.mem_reverse.mp hc)

/-- Canonicalization fixes any list of already-canonical characters. -/
theorem canonList_fixed {L : List Char}
    (hm : ∀ c ∈ L, isWordChar c = true ∧ lowerChar c = c ∧ spaceToUnderscore c = c ∧
      isStripWS c = false) :
    canonList L = L := by
  unfold canonList
  rw [stripL_eq_self (fun c h => (hm c h).2.2.2)]
  rw [List.map_congr_left (fun c h => (hm c h).2.1)]
  simp only [List.map_id']
  rw [List.map_congr_left (fun c h => (hm c h).2.2.1)]
  simp only [List.map_id']
  exact List.filter_eq_self.mpr (fun c h => (hm c h).1)

/-- Canonicalization of character lists is idempotent. -/
theorem canonList_idem (l : List Char) : canonList (canonList l) = canonList l :=
  canonList_fixed (fun _ h => mem_canonList h)

/-- Claim C9 (confirmed): the column-name canonicalization (trim,
lowercase, whitespace→underscore, strip non-word characters) is
idempotent: re-canonicalizing an already-canonicalized name returns it
unchanged. -/
theorem canonName_idempotent (s : String) : canonName (canonName s) = canonName s := by
  unfold canonName
  exact congrArg (fun l => (⟨l⟩ : String)) (canonList_idem s.data)

/-! ### Index and row-update lemmas -/

/-- A found index points at the sought name. -/
theorem idxOf_get {n : String} : ∀ {l : List String} {i : Nat},
    idxOf n l = some i → l.get? i = some n := by
  intro l
  induction l with
  | nil => intro i h; simp [idxOf] at h
  | cons c t ih =>
    intro i h
    unfold idxOf at h
    by_cases hc : c == n
    · rw [if_pos hc] at h
      cases h
      simpa using (eq_of_beq hc)
    · rw [if_neg hc] at h
      cases hidx : idxOf n t with
      | none => rw [hidx] at h; simp at h
      | some j =>
        rw [hidx] at h
        simp only [Option.map_some'] at h
        cases h
        simpa using ih hidx

/-- A present name has an index, pointing at it. -/
theorem idxOf_of_mem {n : String} : ∀ {l : List String}, n ∈ l →
    ∃ i, idxOf n l = some i ∧ l.get? i = some n := by
  intro l
  induction l with
  | nil => intro h; simp at h
  | cons c t ih =>
    intro h
    by_cases hc : c == n
    · exact ⟨0, by simp [idxOf, hc], by simpa using (eq_of_beq hc)⟩
    · have hnt : n ∈ t := by
        rcases List.mem_cons.mp h with h1 | h1
        · exact absurd (by simp [h1]) hc
        · exact h1
      obtain ⟨j, hj, hg⟩ := ih hnt
      exact ⟨j + 1, by simp [idxOf, hc, hj], by simpa using hg⟩

/-- Row update leaves row length unchanged. -/
theorem length_setRowV (n : String) (v : Val) : ∀ (cs : List String) (r : List Val),
    (setRowV n v cs r).length = r.length := by
  intro cs
  induction cs with
  | nil => intro r; cases r <;> rfl
  | cons c ct ih =>
    intro r
    cases r with
    | nil => rfl
    | cons x xt => simp [setRowV, ih]

/-- Reading an updated row at a position bearing the updated name. -/
theorem cell_setRowV_eq {n : String} {v : Val} : ∀ {cs : List String} {r : List Val} {i : Nat},
    cs.get? i = some n → i < r.length → cell (setRowV n v cs r) i = v := by
  intro cs
  induction cs with
  | nil => intro r i h _; simp at h
  | cons c ct ih =>
    intro r i h hi
    cases r with
    | nil => simp at hi
    | cons x xt =>
      cases i with
      | zero =>
        simp only [List.get?] at h
        cases h
        simp [setRowV, cell]
      | succ j =>
        simp only [List.get?] at h
        have hj : j < xt.length := by simpa using hi
        simpa [setRowV, cell] using ih h hj

/-- Reading an updated row at a position bearing a different name. -/
theorem cell_setRowV_ne {n : String} {v : Val} : ∀ {cs : List String} {r : List Val} {i : Nat},
    cs.get? i ≠ some n → cell (setRowV n v cs r) i = cell r i := by
  intro cs
  induction cs with
  | nil => intro r i _; cases r <;> rfl
  | cons c ct ih =>
    intro r i h
    cases r with
    | nil => rfl
    | cons x xt =>
      cases i with
      | zero =>
        simp only [List.get?] at h
        have hc : (c == n) = false := by
          cases hcb : c == n
          · rfl
          · exact absurd (congrArg some (eq_of_beq hcb)) h
        simp [setRowV, cell, hc]
      | succ j =>
        simp only [List.get?] at h
        simpa [setRowV, cell] using ih h

/-- Reading an updated row beyond its length. -/
theorem cell_setRowV_ge {n : String} {v : Val} {cs : List String} {r : List Val} {i : Nat}
    (h : r.length ≤ i) : cell (setRowV n v cs r) i = cell r i := by
  unfold cell
  rw [List.getD_eq_default, List.getD_eq_default]
  · exact h
  · rw [length_setRowV]; exact h

/-! ### Membership and containment bridges -/

/-- `List.contains` agrees with membership (lawful `BEq`). -/
theorem contains_iff_mem {α : Type} [BEq α] [LawfulBEq α] {l : List α} {a : α} :
    l.contains a = true ↔ a ∈ l :=
  ⟨List.mem_of_elem_eq_true, List.elem_eq_true_of_mem⟩

/-- A successful `get?` witnesses an in-range index. -/
theorem lt_of_get?_eq_some {α : Type} {l : List α} {i : Nat} {a : α}
    (h : l.get? i = some a) : i < l.length := by
  by_contra hlt
  rw [List.get?_eq_none.mpr (Nat.le_of_not_lt hlt)] at h
  exact Option.noConfusion h

/-- Unfolding of the coordinate step when both columns exist: filter the
null rows out first, then rewrite both coordinate columns. -/
theorem dropCoords_rows (d : DF) (hla : "latitude" ∈ d.cols) (hlo : "longitude" ∈ d.cols) :
    (dropCoords d).rows =
      ((d.rows.filter (fun r => !(cell r (colPos d "latitude") == Val.null) &&
          !(cell r (colPos d "longitude") == Val.null))).map
        (fun r => setRowV "latitude" (toNumericVal (cell r (colPos d "latitude"))) d.cols r)).map
        (fun r1 => setRowV "longitude" (toNumericVal (cell r1 (colPos d "longitude"))) d.cols r1) := by
  have hc1 : d.cols.contains "latitude" = true := contains_iff_mem.mpr hla
  have hc2 : d.cols.contains "longitude" = true := contains_iff_mem.mpr hlo
  simp only [dropCoords, setCol, hc1, hc2, Bool.and_self, if_true, List.map_map]

/-- Claim C1 (corrected): rows surviving the coordinate step are exactly
the rows whose original latitude/longitude cells were non-null, with both
cells then passed through `to_numeric`; the drop precedes the coercion,
so a non-null unparsable coordinate still becomes null in the result. -/
theorem dropCoords_drop_before_coerce (d : DF) (hwf : d.WF)
    (hla : "latitude" ∈ d.cols) (hlo : "longitude" ∈ d.cols) :
    ∀ r' ∈ (dropCoords d).rows, ∃ r ∈ d.rows,
      cell r (colPos d "latitude") ≠ Val.null ∧
      cell r (colPos d "longitude") ≠ Val.null ∧
      cell r' (colPos d "latitude") = toNumericVal (cell r (colPos d "latitude")) ∧
      cell r' (colPos d "longitude") = toNumericVal (cell r (colPos d "longitude")) := by
  obtain ⟨li, hli, hgli⟩ := idxOf_of_mem hla
  obtain ⟨oi, hoi, hgoi⟩ := idxOf_of_mem hlo
  have hposl : colPos d "latitude" = li := by simp [colPos, hli]
  have hposo : colPos d "longitude" = oi := by simp [colPos, hoi]
  intro r' hr'
  rw [dropCoords_rows d hla hlo] at hr'
  simp only [List.mem_map] at hr'
  obtain ⟨r1, ⟨r, hrmem, hr1eq⟩, hr'eq⟩ := hr'
  obtain ⟨hr0, hfilt⟩ := List.mem_filter.mp hrmem
  rw [Bool.and_eq_true, Bool.not_eq_true', Bool.not_eq_true', beq_eq_false_iff_ne,
    beq_eq_false_iff_ne] at hfilt
  have hlen : r.length = d.cols.length := hwf r hr0
  have hlilt : li < r.length := by rw [hlen]; exact lt_of_get?_eq_some hgli
  have hoilt : oi < r.length := by rw [hlen]; exact lt_of_get?_eq_some hgoi
  refine ⟨r, hr0, ?_, ?_, ?_, ?_⟩
  · exact hfilt.1
  · exact hfilt.2
  · rw [hposl, ← hr'eq, ← hr1eq]
    rw [cell_setRowV_ne (by rw [hgli]; simp)]
    rw [cell_setRowV_eq hgli hlilt, hposl]
  · rw [hposo, ← hr'eq, ← hr1eq]
    have h1len : (setRowV "latitude" (toNumericVal (cell r (colPos d "latitude"))) d.cols r).length
        = r.length := length_setRowV _ _ _ _
    rw [cell_setRowV_eq hgoi (by rw [h1len]; exact hoilt)]
    rw [hposo, cell_setRowV_ne (by rw [hgoi]; simp)]

/-- Witness for `dropCoords_drop_before_coerce` at the unparsable-string
input. -/
theorem dropCoords_drop_before_coerce_witness :
    ∃ r ∈ dfStrCoord.rows,
      cell r (colPos dfStrCoord "latitude") ≠ Val.null ∧
      cell r (colPos dfStrCoord "longitude") ≠ Val.null ∧
      cell [Val.null, Val.vnum 1] (colPos dfStrCoord "latitude") =
        toNumericVal (cell r (colPos dfStrCoord "latitude")) ∧
      cell [Val.null, Val.vnum 1] (colPos dfStrCoord "longitude") =
        toNumericVal (cell r (colPos dfStrCoord "longitude")) :=
  dropCoords_drop_before_coerce dfStrCoord
    (by unfold DF.WF; decide) (by decide) (by decide)
    [Val.null, Val.vnum 1] (by decide)

/-- Counterexample to claim C1 as stated: on an input whose latitude and
longitude columns are both detected, a row with a non-null unparsable
latitude survives the drop and the returned table holds a null latitude. -/
theorem loadData_null_survives :
    "latitude" ∈ (preDrop dfStrCoord).cols ∧ "longitude" ∈ (preDrop dfStrCoord).cols ∧
    colVals (loadData dfStrCoord) "latitude" = [Val.null] := by
  refine ⟨by decide, by decide, by decide⟩

/-! ### Claim C4: injury-column selection -/

/-- The last element of a cons in terms of the tail's last element. -/
theorem getLast?_cons_eq {α : Type} (a : α) (l : List α) :
    (a :: l).getLast? = some (l.getLast?.getD a) := by
  induction l generalizing a with
  | nil => rfl
  | cons b t ih =>
    rw [List.getLast?_cons_cons, ih b]
    rfl

/-- The search loop returns the first both-`injured`-and-`person` match
when one exists; otherwise the last `injured` match; otherwise the
accumulator. -/
theorem injuryLoop_eq (cols : List String) : ∀ acc,
    injuryLoop cols acc =
      match cols.find? (fun c => containsSub c "injured" && containsSub c "person") with
      | some c => some c
      | none =>
        match (cols.filter (fun c => containsSub c "injured")).getLast? with
        | some c => some c
        | none => acc := by
  induction cols with
  | nil => intro acc; rfl
  | cons c t ih =>
    intro acc
    by_cases hb : (containsSub c "injured" && containsSub c "person") = true
    · unfold injuryLoop
      rw [if_pos hb]
      simp only [List.find?, hb]
    · have hb' : (containsSub c "injured" && containsSub c "person") = false :=
        Bool.not_eq_true _ ▸ eq_false_of_ne_true hb
      unfold injuryLoop
      rw [if_neg hb]
      by_cases hi : containsSub c "injured" = true
      · rw [if_pos hi]
        have hp' : containsSub c "person" = false := by
          rw [hi] at hb'
          simpa using hb'
        simp only [List.find?, hi, hp', Bool.true_and, List.filter, ih (some c),
          getLast?_cons_eq]
        cases hf : t.find? (fun c => containsSub c "injured" && containsSub c "person") with
        | some d => simp only [hf]
        | none =>
          simp only [hf]
          cases hl : (t.filter (fun c => containsSub c "injured")).getLast? with
          | none => simp only [hl]; rfl
          | some d => simp only [hl, Option.getD_some]
      · have hi' : containsSub c "injured" = false := eq_false_of_ne_true hi
        rw [if_neg hi]
        simp only [List.find?, hb', List.filter, hi', ih acc, Bool.false_and]

/-- `fillna(0)` leaves no null behind. -/
theorem fillZero_ne_null (v : Val) : fillZero (toNumericVal v) ≠ Val.null := by
  cases v with
  | null => simp [toNumericVal, fillZero]
  | vstr s =>
    simp only [toNumericVal]
    cases parseNum s with
    | none => simp [fillZero]
    | some q => simp [fillZero]
  | vnum q => simp [toNumericVal, fillZero]
  | vdt y m d h mi => simp [toNumericVal, fillZero]

/-- A selected injury column is one of the table's columns. -/
theorem injuryCol_mem {cols : List String} {c : String} (h : injuryCol cols = some c) :
    c ∈ cols := by
  rw [injuryCol, injuryLoop_eq] at h
  cases hf : cols.find? (fun c => containsSub c "injured" && containsSub c "person") with
  | some d =>
    rw [hf] at h
    cases h
    exact List.mem_of_find?_eq_some hf
  | none =>
    rw [hf] at h
    cases hl : (cols.filter (fun c => containsSub c "injured")).getLast? with
    | some d =>
      rw [hl] at h
      cases h
      obtain ⟨hne, hx⟩ := List.mem_getLast?_eq_getLast (Option.mem_def.mpr hl)
      exact (List.mem_filter.mp (hx ▸ List.getLast_mem hne)).1
    | none => rw [hl] at h; exact Option.noConfusion h

/-- Claim C4 (corrected): the injury step selects the first column whose
name contains both `injured` and `person` and otherwise the LAST column
containing `injured` (the loop keeps overwriting); at most that one
column is renamed to `injured_persons`, whose values are then numeric
with nulls replaced by 0. -/
theorem injury_column_amended :
    (∀ cols : List String, injuryCol cols =
      match cols.find? (fun c => containsSub c "injured" && containsSub c "person") with
      | some c => some c
      | none => (cols.filter (fun c => containsSub c "injured")).getLast?) ∧
    (∀ df : DF, df.WF → (injuryCol df.cols).isSome →
      ∀ v ∈ colVals (applyInjury df) "injured_persons", v ≠ Val.null) := by
  constructor
  · intro cols
    rw [injuryCol, injuryLoop_eq]
    cases hf : cols.find? (fun c => containsSub c "injured" && containsSub c "person") with
    | some d => rfl
    | none =>
      cases hl : (cols.filter (fun c => containsSub c "injured")).getLast? with
      | some d => rfl
      | none => rfl
  · intro df hwf hsome v hv
    obtain ⟨c, hc⟩ := Option.isSome_iff_exists.mp hsome
    have hcm : c ∈ df.cols := injuryCol_mem hc
    have hmem : "injured_persons" ∈ (renameAll [(c, "injured_persons")] df).cols := by
      unfold renameAll
      simp only [List.mem_map]
      exact ⟨c, hcm, by simp [List.lookup]⟩
    have hcontains := contains_iff_mem.mpr hmem
    have happly : applyInjury df =
        setCol (renameAll [(c, "injured_persons")] df) "injured_persons"
          (fun r => fillZero (toNumericVal
            (cell r (colPos (renameAll [(c, "injured_persons")] df) "injured_persons")))) := by
      unfold applyInjury
      rw [hc]
    rw [happly] at hv
    unfold setCol at hv
    rw [if_pos hcontains] at hv
    obtain ⟨i, hi, hgi⟩ := idxOf_of_mem hmem
    unfold colVals at hv
    simp only [hi] at hv
    simp only [List.mem_map] at hv
    obtain ⟨r, hr, hveq⟩ := hv
    obtain ⟨r0, hr0, hr0eq⟩ := hr
    have hlen : r0.length = (renameAll [(c, "injured_persons")] df).cols.length := by
      unfold renameAll
      simp only [List.length_map]
      exact hwf r0 hr0
    have hilt : i < r0.length := by
      rw [hlen]
      exact lt_of_get?_eq_some hgi
    rw [← hveq, ← hr0eq, cell_setRowV_eq hgi hilt]
    exact fillZero_ne_null _

/-- Witness for `injury_column_amended` on the two-injury-column table:
the coerced column value is non-null. -/
theorem injury_column_amended_witness : Val.vnum 2 ≠ Val.null :=
  injury_column_amended.2 dfTwoInjured (by unfold DF.WF; decide) (by decide)
    (Val.vnum 2) (by decide)

/-- Counterexample to claim C4 as stated: with two plain `injured`
columns the loop keeps the LAST one, not the first, and that last column
is the one renamed to `injured_persons`. -/
theorem injury_first_match_refuted :
    injuryCol ["injured_a", "injured_b"] = some "injured_b" ∧
    ["injured_a", "injured_b"].find? (fun c => containsSub c "injured") = some "injured_a" ∧
    (applyInjury dfTwoInjured).cols = ["injured_a", "injured_persons"] := by
  decide

/-! ### Claim C3: the factor rename dictionary -/

/-- Unfolding of association-list lookup at a cons. -/
theorem lookup_cons (a : String) (p : String × String) (t : List (String × String)) :
    List.lookup a (p :: t) = if a == p.1 then some p.2 else List.lookup a t := by
  cases hb : a == p.1 <;> simp [List.lookup, hb]

/-- Dict assignment: the assigned key subsequently looks up its value. -/
theorem lookup_dictInsert_self (m : List (String × String)) (k v : String) :
    (dictInsert m k v).lookup k = some v := by
  unfold dictInsert
  by_cases hany : m.any (fun p => p.1 == k) = true
  · rw [if_pos hany]
    revert hany
    induction m with
    | nil => intro hany; simp at hany
    | cons p t ih =>
      intro hany
      by_cases hp : p.1 = k
      · rw [List.map_cons, if_pos (beq_iff_eq.mpr hp), lookup_cons]
        simp
      · rw [List.map_cons, if_neg (by simpa using hp), lookup_cons,
          if_neg (by simpa using fun h => hp h.symm)]
        refine ih ?_
        rw [List.any_cons, Bool.or_eq_true] at hany
        exact hany.resolve_left (by simpa using hp)
  · rw [if_neg hany]
    revert hany
    induction m with
    | nil => intro _; simp [List.lookup]
    | cons p t ih =>
      intro hany
      have hp : ¬ p.1 = k := by
        intro h
        exact hany (by rw [List.any_cons, beq_iff_eq.mpr h, Bool.true_or])
      rw [List.cons_append, lookup_cons, if_neg (by simpa using fun h => hp h.symm)]
      refine ih ?_
      intro h
      exact hany (by rw [List.any_cons, h, Bool.or_true])

/-- Dict assignment leaves other keys' lookups unchanged. -/
theorem lookup_dictInsert_other (m : List (String × String)) (k v a : String)
    (hak : a ≠ k) : (dictInsert m k v).lookup a = m.lookup a := by
  unfold dictInsert
  by_cases hany : m.any (fun p => p.1 == k) = true
  · rw [if_pos hany]
    clear hany
    induction m with
    | nil => rfl
    | cons p t ih =>
      by_cases hp : p.1 = k
      · rw [List.map_cons, if_pos (beq_iff_eq.mpr hp), lookup_cons, lookup_cons]
        have hne : ¬ a = p.1 := by rw [hp]; exact hak
        rw [if_neg (by simpa using hak), if_neg (by simpa using hne)]
        exact ih
      · rw [List.map_cons, if_neg (by simpa using hp), lookup_cons, lookup_cons]
        by_cases hap : a = p.1
        · rw [if_pos (by simpa using hap), if_pos (by simpa using hap)]
        · rw [if_neg (by simpa using hap), if_neg (by simpa using hap)]
          exact ih
  · rw [if_neg hany]
    clear hany
    induction m with
    | nil =>
      rw [List.nil_append, lookup_cons]
      simp only [List.lookup]
      rw [if_neg (by simpa using hak)]
    | cons p t ih =>
      rw [List.cons_append, lookup_cons, lookup_cons]
      by_cases hap : a = p.1
      · rw [if_pos (by simpa using hap), if_pos (by simpa using hap)]
      · rw [if_neg (by simpa using hap), if_neg (by simpa using hap)]
        exact ih

/-- The factor-mapping fold: a factor column with a retained vehicle
index keeps its own entry in the final dictionary — entries are keyed by
source column, so no later column overwrites it. -/
theorem factorFold_lookup (k : String) (i : Nat)
    (hk1 : containsSub k "contributing_factor" = true)
    (hk2 : vehicleIdx k = some i) (hk3 : (i == 1 || i == 2) = true) :
    ∀ (cols : List String) (m : List (String × String)),
    (k ∈ cols ∨ m.lookup k = some (factorTarget i)) →
    (cols.foldl
      (fun m c =>
        if containsSub c "contributing_factor" then
          match vehicleIdx c with
          | some j => if j == 1 || j == 2 then dictInsert m c (factorTarget j) else m
          | none => m
        else m)
      m).lookup k = some (factorTarget i) := by
  intro cols
  induction cols with
  | nil =>
    intro m h
    rcases h with h | h
    · simp at h
    · exact h
  | cons c t ih =>
    intro m h
    rw [List.foldl_cons]
    by_cases hck : c = k
    · subst hck
      refine ih _ (Or.inr ?_)
      rw [if_pos hk1, hk2]
      simp only [hk3, if_true]
      exact lookup_dictInsert_self _ _ _
    · have hpres : ∀ m' : List (String × String), m'.lookup k = some (factorTarget i) →
          ((if containsSub c "contributing_factor" = true then
            match vehicleIdx c with
            | some j => if (j == 1 || j == 2) = true then dictInsert m' c (factorTarget j) else m'
            | none => m'
          else m')).lookup k = some (factorTarget i) := by
        intro m' hm'
        by_cases hc1 : containsSub c "contributing_factor" = true
        · rw [if_pos hc1]
          cases hvi : vehicleIdx c with
          | none => exact hm'
          | some j =>
            by_cases hj : (j == 1 || j == 2) = true
            · simp only [hj, if_true]
              rw [lookup_dictInsert_other _ _ _ _ (fun h => hck h.symm)]
              exact hm'
            · simp only [eq_false_of_ne_true hj, Bool.false_eq_true, if_false]
              exact hm'
        · rw [if_neg hc1]
          exact hm'
      rcases h with h | h
      · rcases List.mem_cons.mp h with h1 | h1
        · exact absurd h1.symm hck
        · exact ih _ (Or.inl h1)
      · exact ih _ (Or.inr (hpres m h))

/-- Two distinct elements with the same image force a repeated value in
the mapped list. -/
theorem two_mem_map_count {l : List String} {c1 c2 t : String} {f : String → String}
    (hne : c1 ≠ c2) (h1 : c1 ∈ l) (h2 : c2 ∈ l) (hf1 : f c1 = t) (hf2 : f c2 = t) :
    2 ≤ (l.map f).count t := by
  induction l with
  | nil => simp at h1
  | cons a rest ih =>
    rw [List.map_cons, List.count_cons]
    by_cases ha1 : a = c1
    · have h2r : c2 ∈ rest := by
        rcases List.mem_cons.mp h2 with h | h
        · exact absurd (ha1 ▸ h.symm) hne
        · exact h
      have hpos : 0 < (rest.map f).count t := by
        rw [List.count_pos_iff]
        exact List.mem_map.mpr ⟨c2, h2r, hf2⟩
      have hft : (f a == t) = true := by rw [ha1, hf1]; simp
      rw [hft]
      have hone : (if (true = true) then 1 else 0) = 1 := rfl
      rw [hone]
      omega
    · by_cases ha2 : a = c2
      · have h1r : c1 ∈ rest := by
          rcases List.mem_cons.mp h1 with h | h
          · exact absurd (ha2 ▸ h.symm) (fun hh => hne hh.symm)
          · exact h
        have hpos : 0 < (rest.map f).count t := by
          rw [List.count_pos_iff]
          exact List.mem_map.mpr ⟨c1, h1r, hf1⟩
        have hft : (f a == t) = true := by rw [ha2, hf2]; simp
        rw [hft]
        have hone : (if (true = true) then 1 else 0) = 1 := rfl
        rw [hone]
        omega
      · have h1r : c1 ∈ rest := by
          rcases List.mem_cons.mp h1 with h | h
          · exact absurd h.symm ha1
          · exact h
        have h2r : c2 ∈ rest := by
          rcases List.mem_cons.mp h2 with h | h
          · exact absurd h.symm ha2
          · exact h
        have := ih h1r h2r
        omega

/-- Claim C3 (corrected): vehicle indices are detected by substring and
only 1 and 2 are renamed, but the rename dictionary is keyed by SOURCE
column, so two distinct source columns with the same detected index each
keep their own entry, and after the rename two columns bear the same
target name — no last-match-wins overwrite occurs. -/
theorem factor_rename_amended (df : DF) (c1 c2 : String) (i : Nat)
    (hne : c1 ≠ c2) (h1 : c1 ∈ df.cols) (h2 : c2 ∈ df.cols)
    (hf1 : containsSub c1 "contributing_factor" = true)
    (hf2 : containsSub c2 "contributing_factor" = true)
    (hv1 : vehicleIdx c1 = some i) (hv2 : vehicleIdx c2 = some i)
    (hi : i = 1 ∨ i = 2) :
    (factorMapping df.cols).lookup c1 = some (factorTarget i) ∧
    (factorMapping df.cols).lookup c2 = some (factorTarget i) ∧
    2 ≤ ((applyFactors df).cols.count (factorTarget i)) := by
  have hib : (i == 1 || i == 2) = true := by
    rcases hi with h | h <;> simp [h]
  have hl1 : (factorMapping df.cols).lookup c1 = some (factorTarget i) := by
    unfold factorMapping
    exact factorFold_lookup c1 i hf1 hv1 hib df.cols [] (Or.inl h1)
  have hl2 : (factorMapping df.cols).lookup c2 = some (factorTarget i) := by
    unfold factorMapping
    exact factorFold_lookup c2 i hf2 hv2 hib df.cols [] (Or.inl h2)
  refine ⟨hl1, hl2, ?_⟩
  have hnonempty : (factorMapping df.cols).isEmpty = false := by
    cases hm : factorMapping df.cols with
    | nil => rw [hm] at hl1; simp [List.lookup] at hl1
    | cons p t => rfl
  simp only [applyFactors, hnonempty, Bool.false_eq_true, if_false]
  unfold renameAll
  exact two_mem_map_count hne h1 h2 (by rw [hl1]; rfl) (by rw [hl2]; rfl)

/-- Witness for `factor_rename_amended` on the two-source-column table. -/
theorem factor_rename_amended_witness :
    (factorMapping dfTwoFactor.cols).lookup "contributing_factor_vehicle_1" =
      some (factorTarget 1) ∧
    (factorMapping dfTwoFactor.cols).lookup "extra_contributing_factor_vehicle_1" =
      some (factorTarget 1) ∧
    2 ≤ ((applyFactors dfTwoFactor).cols.count (factorTarget 1)) :=
  factor_rename_amended dfTwoFactor
    "contributing_factor_vehicle_1" "extra_contributing_factor_vehicle_1" 1
    (by decide) (by decide) (by decide) (by decide) (by decide) (by decide) (by decide)
    (Or.inl rfl)

/-- Counterexample to claim C3 as stated: the dictionary holds one entry
per source column (no overwrite), and after `load_data` TWO columns carry
the target name `contributing_factor_vehicle_1`, not exactly one. -/
theorem factor_rename_overwrite_refuted :
    factorMapping dfTwoFactor.cols =
      [("contributing_factor_vehicle_1", "contributing_factor_vehicle_1"),
       ("extra_contributing_factor_vehicle_1", "contributing_factor_vehicle_1")] ∧
    (loadData dfTwoFactor).cols.count "contributing_factor_vehicle_1" = 2 := by
  decide

/-! ### Claim C10: one column feeding both coordinate renames -/

/-- Pointwise description of a one-entry rename map. -/
theorem rename_one_apply (c t x : String) :
    ((List.lookup x [(c, t)]).getD x) = if x = c then t else x := by
  by_cases h : x = c
  · rw [lookup_cons, if_pos (by simpa using h), if_pos h]
    rfl
  · rw [lookup_cons, if_neg (by simpa using h), if_neg h]
    rfl

/-- The two sequential coordinate renames when one column is both the
latitude and the longitude source: the column becomes `latitude`, and the
`longitude` rename is a no-op because its key no longer names any column. -/
theorem renameLatLon_single_source (st : DF) (c : String)
    (hlat : latColF st.cols = some c) (hlon : lonColF st.cols = some c) :
    "latitude" ∈ (renameLatLon st).cols ∧
    ("longitude" ∈ (renameLatLon st).cols ↔ "longitude" ∈ st.cols) := by
  have hflat : st.cols.find? (fun x => containsSub x "lat") = some c := hlat
  have hflon : st.cols.find? (fun x => containsSub x "lon") = some c := hlon
  have hc_lat : containsSub c "lat" = true := by
    have h := List.find?_some hflat
    simpa using h
  have hc_lon : containsSub c "lon" = true := by
    have h := List.find?_some hflon
    simpa using h
  have hcm : c ∈ st.cols := List.mem_of_find?_eq_some hflat
  have hne_lat : c ≠ "latitude" := by
    intro h
    rw [h] at hc_lon
    exact absurd hc_lon (by decide)
  have hne_lon : c ≠ "longitude" := by
    intro h
    rw [h] at hc_lat
    exact absurd hc_lat (by decide)
  have hsteps : (renameLatLon st).cols =
      st.cols.map (fun x =>
        (List.lookup ((List.lookup x [(c, "latitude")]).getD x)
          [(c, "longitude")]).getD ((List.lookup x [(c, "latitude")]).getD x)) := by
    simp only [renameLatLon, hlat, hlon, renameAll, List.map_map]
    rfl
  have e1 : (List.lookup c [(c, "latitude")]).getD c = "latitude" := by
    rw [rename_one_apply, if_pos rfl]
  have e2 : ∀ x, x ≠ c → (List.lookup x [(c, "latitude")]).getD x = x := by
    intro x hxc
    rw [rename_one_apply, if_neg hxc]
  have e3 : ∀ x, x ≠ c → (List.lookup x [(c, "longitude")]).getD x = x := by
    intro x hxc
    rw [rename_one_apply, if_neg hxc]
  constructor
  · rw [hsteps]
    refine List.mem_map.mpr ⟨c, hcm, ?_⟩
    rw [e1, e3 "latitude" (fun h => hne_lat h.symm)]
  · rw [hsteps]
    constructor
    · intro h
      obtain ⟨x, hx, hxeq⟩ := List.mem_map.mp h
      by_cases hxc : x = c
      · rw [hxc, e1, e3 "latitude" (fun h => hne_lat h.symm)] at hxeq
        exact absurd hxeq (by decide)
      · rw [e2 x hxc, e3 x hxc] at hxeq
        rw [← hxeq]
        exact hx
    · intro h
      refine List.mem_map.mpr ⟨"longitude", h, ?_⟩
      rw [e2 "longitude" (fun hh => hne_lon hh.symm),
        e3 "longitude" (fun hh => hne_lon hh.symm)]

/-- Claim C10 (corrected): when the first `lat`-bearing canonical column
is also the first `lon`-bearing one, that single column is renamed to
`latitude` and the `longitude` rename is a no-op; a `longitude` column is
present afterwards exactly when some column already bore that literal
name — not never, as claimed. -/
theorem loadData_latlon_amended (df : DF) (c : String)
    (hlat : latColF (addDatetime (canonCols df)).cols = some c)
    (hlon : lonColF (addDatetime (canonCols df)).cols = some c) :
    "latitude" ∈ (renameLatLon (addDatetime (canonCols df))).cols ∧
    ("longitude" ∈ (renameLatLon (addDatetime (canonCols df))).cols ↔
      "longitude" ∈ (addDatetime (canonCols df)).cols) :=
  renameLatLon_single_source (addDatetime (canonCols df)) c hlat hlon

/-- Witness for `loadData_latlon_amended` on the `latlon` table. -/
theorem loadData_latlon_amended_witness :
    "latitude" ∈ (renameLatLon (addDatetime (canonCols dfLatLon))).cols ∧
    ("longitude" ∈ (renameLatLon (addDatetime (canonCols dfLatLon))).cols ↔
      "longitude" ∈ (addDatetime (canonCols dfLatLon)).cols) :=
  loadData_latlon_amended dfLatLon "latlon" (by decide) (by decide)

/-- Counterexample to claim C10 as stated: on the `latlon` table the
detection premise holds, yet the normalized table does contain a
`longitude` column, because an original column already bore that name. -/
theorem loadData_latlon_refuted :
    latColF (addDatetime (canonCols dfLatLon)).cols = some "latlon" ∧
    lonColF (addDatetime (canonCols dfLatLon)).cols = some "latlon" ∧
    "longitude" ∈ (loadData dfLatLon).cols := by
  decide

/-! ### Claim C2: panels write to the shared table -/

/-- Reading an extended row below the original length. -/
theorem cell_append_lt {r l : List Val} {i : Nat} (h : i < r.length) :
    cell (r ++ l) i = cell r i := by
  unfold cell
  exact List.getD_append _ _ _ _ h

/-- Claim C2 (corrected): panel renders are NOT mutation-free — the time
series panel appends `date` and `hour` columns to the shared table (and
the factor-by-hour panel appends `hour` under its guards), though every
pre-existing column position keeps its values. -/
theorem panel_mutation_amended (df : DF) (hwf : df.WF)
    (hdt : "datetime" ∈ df.cols) (hd : "date" ∉ df.cols) (hh : "hour" ∉ df.cols) :
    (timeSeriesEffect df).cols = df.cols ++ ["date", "hour"] ∧
    (∀ i < df.cols.length,
      (timeSeriesEffect df).rows.map (fun r => cell r i) =
        df.rows.map (fun r => cell r i)) ∧
    ((df.cols.any (fun c => containsSub c "contributing_factor_vehicle_") = true ∧
      (p5FactorCols df.cols).isEmpty = false) →
      (panel5Effect df).cols = df.cols ++ ["hour"]) := by
  have hcdt : df.cols.contains "datetime" = true := contains_iff_mem.mpr hdt
  have hcd : df.cols.contains "date" = false := by
    cases hb : df.cols.contains "date"
    · rfl
    · exact absurd (contains_iff_mem.mp hb) hd
  have hch : df.cols.contains "hour" = false := by
    cases hb : df.cols.contains "hour"
    · rfl
    · exact absurd (contains_iff_mem.mp hb) hh
  have hch2 : (df.cols ++ ["date"]).contains "hour" = false := by
    cases hb : (df.cols ++ ["date"]).contains "hour"
    · rfl
    · rcases List.mem_append.mp (contains_iff_mem.mp hb) with h | h
      · exact absurd h hh
      · simp at h
  have hts : timeSeriesEffect df =
      { cols := (df.cols ++ ["date"]) ++ ["hour"],
        rows := (df.rows.map (fun r =>
          r ++ [dtDateVal (cell r (colPos df "datetime"))])).map (fun r =>
          r ++ [dtHourVal (cell r (colPos
            { cols := df.cols ++ ["date"],
              rows := df.rows.map (fun r => r ++ [dtDateVal (cell r (colPos df "datetime"))]) }
            "datetime"))]) } := by
    simp only [timeSeriesEffect, setCol, hcdt, hcd, hch2, Bool.false_eq_true, if_false, if_true]
  refine ⟨?_, ?_, ?_⟩
  · rw [hts, List.append_assoc]
    rfl
  · intro i hi
    rw [hts]
    simp only [List.map_map]
    refine List.map_congr_left ?_
    intro r hr
    have hlen : r.length = df.cols.length := hwf r hr
    have hi1 : i < r.length := by omega
    have hi2 : i < (r ++ [dtDateVal (cell r (colPos df "datetime"))]).length := by
      rw [List.length_append]
      simp only [List.length_singleton]
      omega
    simp only [Function.comp]
    rw [cell_append_lt hi2, cell_append_lt hi1]
  · rintro ⟨hany, hne⟩
    have hcond : (df.cols.contains "datetime" &&
        df.cols.any (fun c => containsSub c "contributing_factor_vehicle_")) = true := by
      rw [hcdt, hany]
      rfl
    simp only [panel5Effect, hcond, if_true, hne, Bool.false_eq_true, if_false, hch,
      Bool.not_false, Bool.true_and, hcdt, setCol, hany]

/-- Witness for `panel_mutation_amended` on the normalized scenario
table: the render leaves the table with two extra columns. -/
theorem panel_mutation_amended_witness :
    (timeSeriesEffect (loadData dfScenario)).cols =
      (loadData dfScenario).cols ++ ["date", "hour"] :=
  (panel_mutation_amended (loadData dfScenario)
    (by unfold DF.WF; decide) (by decide) (by decide) (by decide)).1

/-- Counterexample to claim C2 as stated: rendering the time series panel
changes the cached table's column list. -/
theorem panel_mutation_refuted :
    (timeSeriesEffect (loadData dfScenario)).cols ≠ (loadData dfScenario).cols := by
  decide

/-! ### Claim C5: behaviour when required columns are missing -/

/-- Claim C5 (corrected): with required columns absent, the map panel
warns naming the missing fields and the time series and factor panels
show informational messages, but the heatmap and factor-by-hour panels
render NOTHING (their guards have no else branch); none of them raises. -/
theorem panels_missing_columns_amended (df : DF) (thr : ℚ) (sel : String) :
    (¬("injured_persons" ∈ df.cols ∧ "latitude" ∈ df.cols ∧ "longitude" ∈ df.cols) →
      mapPanelRender df thr =
        Render.warn ("Cannot show map. Missing columns: " ++
          String.intercalate ", " (mapMissing df))) ∧
    ("datetime" ∉ df.cols →
      timeSeriesRender df =
        Render.info "Cannot show temporal charts: No datetime column found.") ∧
    ((df.cols.filter (fun c => containsSub c "contributing_factor_vehicle_")).isEmpty = true →
      factorPanelRender df sel =
        Render.info "No contributing factor columns available for analysis") ∧
    (¬("datetime" ∈ df.cols ∧ "latitude" ∈ df.cols ∧ "longitude" ∈ df.cols) →
      heatmapRender df = Render.silent) ∧
    (¬("datetime" ∈ df.cols ∧
        df.cols.any (fun c => containsSub c "contributing_factor_vehicle_") = true) →
      panel5Render df sel = Render.silent) := by
  refine ⟨?_, ?_, ?_, ?_, ?_⟩
  · intro hmiss
    unfold mapPanelRender
    rw [if_neg]
    intro hc
    rw [Bool.and_eq_true, Bool.and_eq_true] at hc
    exact hmiss ⟨contains_iff_mem.mp hc.1.1, contains_iff_mem.mp hc.1.2,
      contains_iff_mem.mp hc.2⟩
  · intro hmiss
    unfold timeSeriesRender
    rw [if_neg]
    intro hc
    exact hmiss (contains_iff_mem.mp hc)
  · intro hempty
    simp only [factorPanelRender, hempty, Bool.not_true, Bool.false_eq_true, if_false]
  · intro hmiss
    unfold heatmapRender
    rw [if_neg]
    intro hc
    rw [Bool.and_eq_true, Bool.and_eq_true] at hc
    exact hmiss ⟨contains_iff_mem.mp hc.1.1, contains_iff_mem.mp hc.1.2,
      contains_iff_mem.mp hc.2⟩
  · intro hmiss
    unfold panel5Render
    rw [if_neg]
    intro hc
    rw [Bool.and_eq_true] at hc
    exact hmiss ⟨contains_iff_mem.mp hc.1, hc.2⟩

/-- Witness for `panels_missing_columns_amended` on the bare table: the
map panel's warning names all three missing columns. -/
theorem panels_missing_columns_amended_witness :
    mapPanelRender dfBare 1 =
      Render.warn ("Cannot show map. Missing columns: " ++
        String.intercalate ", " (mapMissing dfBare)) :=
  (panels_missing_columns_amended dfBare 1 "x").1 (by decide)

/-- Counterexample to claim C5 as stated: with their required columns
absent, the heatmap and factor-by-hour panels emit no message at all. -/
theorem panels_missing_columns_refuted :
    heatmapRender dfBare = Render.silent ∧ panel5Render dfBare "x" = Render.silent := by
  decide

/-! ### Claim C7: the map panel and empty results -/

/-- Boolean shuffle used for the projection's null test. -/
theorem null_pair_filter (x y g : Bool) :
    (!(x || (y || false)) && g) = (g && (!x && !y)) := by
  cases x <;> cases y <;> cases g <;> rfl

/-- Equality tests against null commute for table values. -/
theorem val_beq_null_comm (a : Val) : (Val.null == a) = (a == Val.null) := by
  by_cases h : a = Val.null
  · subst h
    rfl
  · have h1 : (Val.null == a) = false := by simpa using fun hh => h hh.symm
    have h2 : (a == Val.null) = false := by simpa using h
    rw [h1, h2]

/-- The panel's two-column projection, with the null test pushed onto the
original row. -/
theorem mapMatchRows_eq (df : DF) (thr : ℚ) :
    mapMatchRows df thr =
      (df.rows.filter (fun r =>
        geThr (cell r (colPos df "injured_persons")) thr &&
        (!(cell r (colPos df "latitude") == Val.null) &&
         !(cell r (colPos df "longitude") == Val.null)))).map
        (fun r => [cell r (colPos df "latitude"), cell r (colPos df "longitude")]) := by
  unfold mapMatchRows selectCols
  simp only [List.map_cons, List.map_nil]
  rw [List.filter_map, List.filter_filter]
  refine congrArg _ (List.filter_congr ?_)
  intro r hr
  show (!([cell r (colPos df "latitude"), cell r (colPos df "longitude")].contains Val.null)
      && geThr (cell r (colPos df "injured_persons")) thr)
    = (geThr (cell r (colPos df "injured_persons")) thr &&
       (!(cell r (colPos df "latitude") == Val.null) &&
        !(cell r (colPos df "longitude") == Val.null)))
  rw [List.contains_cons, List.contains_cons, val_beq_null_comm, val_beq_null_comm]
  exact null_pair_filter _ _ _

/-- Claim C7 (corrected): when the three columns are present AND the
injury column holds at least one numeric value, the map panel never
raises: it charts exactly the threshold-matching rows with non-null
coordinates and shows an informational message when none match — but the
`int(max)` of an empty or all-null injury column raises, so the guard on
the right is required. -/
theorem mapPanel_empty_is_message (df : DF) (thr : ℚ)
    (h1 : "injured_persons" ∈ df.cols) (h2 : "latitude" ∈ df.cols)
    (h3 : "longitude" ∈ df.cols)
    (hmax : (seriesMaxQ (colVals df "injured_persons")).isSome = true) :
    mapPanelRender df thr ≠ Render.raised ∧
    (mapPanelRender df thr = Render.chart ↔ mapMatchRows df thr ≠ []) ∧
    (mapPanelRender df thr =
        Render.info "No data matches the filter. Try a lower injury count." ↔
      mapMatchRows df thr = []) ∧
    mapMatchRows df thr =
      (df.rows.filter (fun r =>
        geThr (cell r (colPos df "injured_persons")) thr &&
        (!(cell r (colPos df "latitude") == Val.null) &&
         !(cell r (colPos df "longitude") == Val.null)))).map
        (fun r => [cell r (colPos df "latitude"), cell r (colPos df "longitude")]) := by
  have hcond : (df.cols.contains "injured_persons" && df.cols.contains "latitude" &&
      df.cols.contains "longitude") = true := by
    rw [contains_iff_mem.mpr h1, contains_iff_mem.mpr h2, contains_iff_mem.mpr h3]
    rfl
  obtain ⟨q, hq⟩ := Option.isSome_iff_exists.mp hmax
  have hrender : mapPanelRender df thr =
      if (mapMatchRows df thr).isEmpty then
        Render.info "No data matches the filter. Try a lower injury count."
      else Render.chart := by
    unfold mapPanelRender
    rw [if_pos hcond, hq]
  by_cases he : (mapMatchRows df thr).isEmpty = true
  · have hnil : mapMatchRows df thr = [] := List.isEmpty_iff.mp he
    rw [hrender, if_pos he]
    refine ⟨by simp, ?_, ?_, mapMatchRows_eq df thr⟩
    · constructor
      · intro h
        exact absurd h (by simp)
      · intro h
        exact absurd hnil h
    · simp [hnil]
  · have hne : mapMatchRows df thr ≠ [] := fun h => he (List.isEmpty_iff.mpr h)
    rw [hrender, if_neg he]
    refine ⟨by simp, by simp [hne], ?_, mapMatchRows_eq df thr⟩
    constructor
    · intro h
      exact absurd h (by simp)
    · intro h
      exact absurd h hne

/-- Witness for `mapPanel_empty_is_message`: on the normalized scenario
table with a high threshold, no row matches and the panel shows the
informational message state. -/
theorem mapPanel_empty_is_message_witness :
    mapPanelRender (loadData dfScenario) 5 =
        Render.info "No data matches the filter. Try a lower injury count." ↔
      mapMatchRows (loadData dfScenario) 5 = [] :=
  (mapPanel_empty_is_message (loadData dfScenario) 5
    (by decide) (by decide) (by decide) (by decide)).2.2.1

/-- Counterexample to claim C7 as stated: a normalized table with the
three columns but zero rows (every row was dropped for null coordinates)
makes the map panel raise at `int(data['injured_persons'].max())`. -/
theorem mapPanel_zero_rows_raises :
    (loadData dfAllDropped).cols = ["latitude", "longitude", "injured_persons"] ∧
    (loadData dfAllDropped).rows = [] ∧
    mapPanelRender (loadData dfAllDropped) 1 = Render.raised := by
  decide

/-! ### Claim C6: top-3 factor filter and hourly grouping -/

/-- Membership through the first-occurrence de-duplication accumulator. -/
theorem mem_dedupAux {α : Type} [DecidableEq α] :
    ∀ (l acc : List α) (a : α), a ∈ dedupAux acc l ↔ a ∈ acc ∨ a ∈ l := by
  intro l
  induction l with
  | nil =>
    intro acc a
    simp [dedupAux]
  | cons x t ih =>
    intro acc a
    unfold dedupAux
    rw [ih]
    by_cases hc : acc.contains x = true
    · rw [if_pos hc]
      have hx : x ∈ acc := contains_iff_mem.mp hc
      constructor
      · rintro (h | h)
        · exact Or.inl h
        · exact Or.inr (List.mem_cons_of_mem x h)
      · rintro (h | h)
        · exact Or.inl h
        · rcases List.mem_cons.mp h with h1 | h1
          · exact Or.inl (h1 ▸ hx)
          · exact Or.inr h1
    · rw [if_neg hc]
      rw [List.mem_append, List.mem_singleton, List.mem_cons]
      tauto

/-- Membership in the de-duplicated list. -/
theorem mem_dedupF {α : Type} [DecidableEq α] {l : List α} {a : α} :
    a ∈ dedupF l ↔ a ∈ l := by
  unfold dedupF
  rw [mem_dedupAux]
  simp

/-- Membership through descending insertion. -/
theorem mem_insertDesc {p q : Val × Nat} : ∀ {l : List (Val × Nat)},
    q ∈ insertDesc p l ↔ q = p ∨ q ∈ l := by
  intro l
  induction l with
  | nil => simp [insertDesc]
  | cons x t ih =>
    unfold insertDesc
    by_cases hc : x.2 ≤ p.2
    · rw [if_pos hc]
      simp [List.mem_cons]
    · rw [if_neg hc]
      rw [List.mem_cons, ih, List.mem_cons]
      tauto

/-- Membership is invariant under the descending sort. -/
theorem mem_sortDesc {q : Val × Nat} : ∀ {l : List (Val × Nat)},
    q ∈ sortDesc l ↔ q ∈ l := by
  intro l
  induction l with
  | nil => simp [sortDesc]
  | cons x t ih =>
    unfold sortDesc
    rw [mem_insertDesc, ih, List.mem_cons]

/-- Every key of `value_counts` is one of the non-null values. -/
theorem valueCounts_fst_mem {vs : List Val} {p : Val × Nat} (h : p ∈ valueCounts vs) :
    p.1 ∈ vs.filter (fun v => !(v == Val.null)) := by
  unfold valueCounts at h
  rw [mem_sortDesc] at h
  obtain ⟨v, hv, heq⟩ := List.mem_map.mp h
  rw [← heq]
  exact mem_dedupF.mp hv

/-- The top-3 list of the factor-by-hour panel never holds a null. -/
theorem p5TopFactors_ne_null (df : DF) (sel : String) :
    ∀ v ∈ p5TopFactors df sel, v ≠ Val.null := by
  intro v hv
  unfold p5TopFactors at hv
  obtain ⟨p, hp, heq⟩ := List.mem_map.mp hv
  have hpv : p ∈ valueCounts ((colVals df sel).map fillUnknownV) :=
    List.take_subset 3 _ hp
  have hmem := valueCounts_fst_mem hpv
  rw [List.mem_filter] at hmem
  intro hnull
  rw [heq, hnull] at hmem
  simpa using hmem.2

/-- Claim C6 (corrected): the top 3 values are computed on the column
with nulls filled as "Unknown" and no category excluded, but the row
filter applies `isin` to the ORIGINAL values, so null-factor rows are
always dropped even when "Unknown" ranks in the top 3; the retained rows
are then grouped by `(hour, value)` with group sizes as counts. -/
theorem p5_filter_group_amended (df : DF) (sel : String) :
    (∀ r, r ∈ p5Filtered df sel ↔ r ∈ df.rows ∧
      (p5TopFactors df sel).contains (cell r (colPos df sel)) = true) ∧
    (∀ r ∈ df.rows, cell r (colPos df sel) = Val.null → r ∉ p5Filtered df sel) ∧
    (∀ k n, (k, n) ∈ p5Grouped df sel → n = (p5Keys df sel).count k ∧ 0 < n) ∧
    (∀ k ∈ p5Keys df sel, (k, (p5Keys df sel).count k) ∈ p5Grouped df sel) := by
  refine ⟨?_, ?_, ?_, ?_⟩
  · intro r
    unfold p5Filtered
    exact List.mem_filter
  · intro r _ hnull hmem
    unfold p5Filtered at hmem
    have hpred := (List.mem_filter.mp hmem).2
    rw [hnull] at hpred
    exact p5TopFactors_ne_null df sel Val.null (contains_iff_mem.mp hpred) rfl
  · intro k n hkn
    unfold p5Grouped at hkn
    obtain ⟨k', hk', heq⟩ := List.mem_map.mp hkn
    rw [Prod.mk.injEq] at heq
    obtain ⟨hk, hn⟩ := heq
    subst hk
    refine ⟨hn.symm, ?_⟩
    rw [← hn, List.count_pos_iff]
    exact mem_dedupF.mp hk'
  · intro k hk
    unfold p5Grouped
    exact List.mem_map.mpr ⟨k, mem_dedupF.mpr hk, rfl⟩

/-- Witness for `p5_filter_group_amended` on the null-heavy table: the
null-factor row is excluded from the chart's rows even though "Unknown"
is among the top 3. -/
theorem p5_filter_group_amended_witness :
    [Val.vdt 2021 1 5 14 30, Val.vnum 14, Val.null] ∉
      p5Filtered dfNullFactor "contributing_factor_vehicle_1" :=
  (p5_filter_group_amended dfNullFactor "contributing_factor_vehicle_1").2.1
    [Val.vdt 2021 1 5 14 30, Val.vnum 14, Val.null] (by decide) (by decide)

/-- Counterexample to claim C6 as stated: "Unknown" ranks in the top 3
(nulls counted as "Unknown"), yet only one of the three rows survives the
filter; filtering by the filled values, as the claim reads, would keep
all three. -/
theorem p5_filter_nulls_refuted :
    p5TopFactors dfNullFactor "contributing_factor_vehicle_1" =
      [Val.vstr "Unknown", Val.vstr "A"] ∧
    (p5Filtered dfNullFactor "contributing_factor_vehicle_1").length = 1 ∧
    (dfNullFactor.rows.filter (fun r =>
      (p5TopFactors dfNullFactor "contributing_factor_vehicle_1").contains
        (fillUnknownV (cell r (colPos dfNullFactor "contributing_factor_vehicle_1"))))).length
      = 3 := by
  decide

/-- Claim C8 (confirmed): on the spec's scenario input, `load_data`
returns a one-row table with `datetime` 2021-01-05T14:30, latitude 40.7,
longitude −73.9, 2 injured persons, and the contributing factor string,
under the canonicalized and standardized column names. -/
theorem loadData_scenario :
    loadData dfScenario =
      { cols := ["crash_date", "crash_time", "latitude", "longitude",
                 "injured_persons", "contributing_factor_vehicle_1", "datetime"],
        rows := [[Val.vstr "2021-01-05", Val.vstr "14:30", Val.vnum (407 / 10),
                  Val.vnum (-739 / 10), Val.vnum 2, Val.vstr "Driver Inattention",
                  Val.vdt 2021 1 5 14 30]] } := by
  have h1 : (407 / 10 : ℚ) = ⟨407, 10, by decide, by decide⟩ := by
    have h : ((⟨407, 10, by decide, by decide⟩ : ℚ) : ℚ) = (407 : ℚ) / 10 := by
      rw [Rat.mk'_eq_divInt, Rat.divInt_eq_div]
      norm_num
    rw [h]
  have h2 : (-739 / 10 : ℚ) = ⟨-739, 10, by decide, by decide⟩ := by
    have h : ((⟨-739, 10, by decide, by decide⟩ : ℚ) : ℚ) = (-739 : ℚ) / 10 := by
      rw [Rat.mk'_eq_divInt, Rat.divInt_eq_div]
      norm_num
    rw [h]
  simp only [dfScenario, h1, h2]
  decide
